import Mathlib

/-!
Verification of the neurolink-multi-model-agent RAG pipeline.

This file gives a shallow Lean embedding of the core components of the
repository (chunker, embedding service, retriever, evaluation orchestrator,
aggregator, top-level process) and proves or refutes the specification
claims about them.  JavaScript numbers are modelled as real numbers,
JavaScript strings either as Lean `String` or, where whitespace splitting
matters, as `List Char`.  Network-bound collaborators (embedding provider,
generation capability, web search) are modelled as explicit oracle
functions returning `Except`.
-/

namespace RAG

/-! ## Chunker (src/src/document-manager.ts, `chunkDocument`)

The chunker operates on the word list produced by JavaScript
`content.split(/\s+/)`.  We model strings as `List Char` here because the
exact split semantics matter: splitting the empty string yields `[""]`
(a single empty token), and leading/trailing whitespace contributes empty
boundary tokens. -/

/-- A JavaScript string, modelled as a list of characters. -/
abbrev JSStr := List Char

/-- Auxiliary worker for `splitWs`: `cur` is the reversed current token. -/
def splitWsAux : JSStr → JSStr → List JSStr
  | [], cur => [cur.reverse]
  | c :: rest, cur =>
    if c.isWhitespace then
      cur.reverse :: splitWsAux (rest.dropWhile Char.isWhitespace) []
    else
      splitWsAux rest (c :: cur)
termination_by l _ => l.length
decreasing_by
  · simpa using Nat.lt_succ_of_le (List.dropWhile_sublist _).length_le
  · simp

/-- JavaScript `s.split(/\s+/)`: split on maximal whitespace runs, keeping
empty boundary tokens (`"".split(/\s+/)` is `[""]`). -/
def splitWs (s : JSStr) : List JSStr :=
  splitWsAux s []

/-- JavaScript `String.prototype.trim`. -/
def jsTrim (s : JSStr) : JSStr :=
  ((s.dropWhile Char.isWhitespace).reverse.dropWhile Char.isWhitespace).reverse

/-- JavaScript `Array.prototype.slice(start, stop)`, including the
count-from-the-end semantics of negative arguments. -/
def jsSlice (l : List α) (start stop : Int) : List α :=
  let len : Int := l.length
  let s : Int := if start < 0 then max (len + start) 0 else min start len
  let e : Int := if stop < 0 then max (len + stop) 0 else min stop len
  (l.take e.toNat).drop s.toNat

/-- `Array.prototype.join(' ')`. -/
def joinSpace (ws : List JSStr) : JSStr :=
  List.intercalate [' '] ws

/-- The loop of `chunkDocument`, with explicit fuel.  The source iterates
`for (let i = 0; i < words.length; i += chunkSize - overlap)` and the
step can be zero or negative, in which case the loop never terminates;
`none` means the fuel ran out before the loop finished. -/
def chunkLoop (words : List JSStr) (chunkSize overlap : Int) :
    Int → Nat → Option (List JSStr)
  | _, 0 => none
  | i, fuel + 1 =>
    if i < (words.length : Int) then
      let chunk := joinSpace (jsSlice words i (i + chunkSize))
      match chunkLoop words chunkSize overlap (i + (chunkSize - overlap)) fuel with
      | none => none
      | some rest =>
          some (if jsTrim chunk ≠ [] then jsTrim chunk :: rest else rest)
    else
      some []

/-- `DocumentManager.chunkDocument(content, chunkSize = 500, overlap = 100)`.
When the step `chunkSize - overlap` is at least 1 the loop runs at most
`words.length` iterations, so fuel `words.length + 1` is exact; for a
non-positive step no fuel suffices (the source loops forever). -/
def chunkDocument (content : JSStr) (chunkSize overlap : Int) :
    Option (List JSStr) :=
  let words := splitWs content
  chunkLoop words chunkSize overlap 0 (words.length + 1)

/-- Modelled from the spec (section 4.1): the chunking procedure exactly as
the claim words it — split the text on whitespace into a word list, start
at index 0, advance by `windowSize - overlap` while the index is below the
word count, take up to `windowSize` words per window, trim, and emit only
non-empty windows. -/
def chunkSpecLoop (words : List JSStr) (windowSize step : Nat)
    (hstep : 0 < step) (i : Nat) : List JSStr :=
  if _h : i < words.length then
    let t := jsTrim (joinSpace ((words.drop i).take windowSize))
    let rest := chunkSpecLoop words windowSize step hstep (i + step)
    if t ≠ [] then t :: rest else rest
  else
    []
termination_by words.length - i
decreasing_by omega

/-- Modelled from the spec: whole-text chunking per the claim's words. -/
def chunkSpec (content : JSStr) (windowSize overlap : Nat)
    (h : overlap < windowSize) : List JSStr :=
  chunkSpecLoop (splitWs content) windowSize (windowSize - overlap)
    (by omega) 0

/-! ## Embedding service (src/src/embedding-service.ts, src/embedding-service.js)

JavaScript numbers are modelled as real numbers.  The similarity loop
accumulates `dot += a[i]*b[i]`, `normA += a[i]*a[i]`, `normB += b[i]*b[i]`
over the common index range, which for equal-length vectors is exactly a
`zipWith` sum. -/

noncomputable section

/-- Accumulated product sum of the similarity loop. -/
def dotL (a b : List ℝ) : ℝ :=
  (List.zipWith (· * ·) a b).sum

/-- `EmbeddingService.cosineSimilarity` from src/src/embedding-service.ts:
throws on a length mismatch, otherwise `dot/(‖a‖·‖b‖)` with a zero result
when either norm is zero. -/
def cosineSimilarity (a b : List ℝ) : Except String ℝ :=
  if a.length ≠ b.length then
    .error "Embeddings must have the same length"
  else if Real.sqrt (dotL a a) = 0 ∨ Real.sqrt (dotL b b) = 0 then
    .ok 0
  else
    .ok (dotL a b / (Real.sqrt (dotL a a) * Real.sqrt (dotL b b)))

/-- `EmbeddingService.cosineSimilarity` from src/embedding-service.js:
returns 0 for a missing (null/undefined) vector and for a length mismatch,
otherwise `dot/denominator` with a zero result when the denominator
`‖a‖·‖b‖` is zero. -/
def cosineSimilarityJS : Option (List ℝ) → Option (List ℝ) → ℝ
  | none, _ => 0
  | some _, none => 0
  | some a, some b =>
    if a.length ≠ b.length then 0
    else if Real.sqrt (dotL a a) * Real.sqrt (dotL b b) = 0 then 0
    else dotL a b / (Real.sqrt (dotL a a) * Real.sqrt (dotL b b))

/-- `EmbeddingService.generateEmbedding`: a cache hit returns the stored
vector unchanged; a miss calls the provider, caches a successful vector,
and rethrows a provider failure (leaving the cache unchanged). -/
def generateEmbedding (cache : List (String × List ℝ))
    (provider : String → Except String (List ℝ)) (text : String) :
    Except String (List ℝ × List (String × List ℝ)) :=
  match cache.lookup text with
  | some v => .ok (v, cache)
  | none =>
    match provider text with
    | .ok v => .ok (v, cache ++ [(text, v)])
    | .error e => .error e

end

/-! ## Retriever (src/src/rag-retriever.ts)

The retriever holds the document manager's chunk list, the
`chunkEmbeddings` map (modelled as an association list keyed by
`source + "-" + chunkIndex`) and the embedding service's cache.  `retrieve`
scores every indexed chunk against the query embedding, sorts by
descending score and slices the top K.  `Array.prototype.sort` with the
comparator `(a, b) => b.score - a.score` is required by ECMAScript to be
stable; a stable sort for this comparator is exactly insertion into
descending score order keeping earlier elements first on ties, which is
what `sortDesc` below computes. -/

/-- One chunk as produced by `DocumentManager.getAllChunks`. -/
structure Chunk where
  text : String
  source : String
  chunkIndex : Nat
deriving DecidableEq

/-- `ChunkWithScore` from src/src/types.ts. -/
structure ChunkWithScore where
  text : String
  score : ℝ
  source : String

/-- The key used for insertion and lookup in the `chunkEmbeddings` map. -/
def chunkKey (c : Chunk) : String :=
  c.source ++ "-" ++ toString c.chunkIndex

/-- The retriever-owned state: the loaded chunk list, the chunk-embedding
map and the embedding cache. -/
structure RetrieverState where
  chunks : List Chunk
  chunkEmbeddings : List (String × List ℝ)
  cache : List (String × List ℝ)

noncomputable section

/-- The scoring loop of `retrieve`: chunks without an indexed embedding are
skipped; `cosineSimilarity` may throw, which aborts the whole call. -/
def scoredChunks : List Chunk → List (String × List ℝ) → List ℝ →
    Except String (List ChunkWithScore)
  | [], _, _ => .ok []
  | c :: cs, m, q =>
    match m.lookup (chunkKey c) with
    | none => scoredChunks cs m q
    | some emb =>
      match cosineSimilarity q emb with
      | .error e => .error e
      | .ok s =>
        match scoredChunks cs m q with
        | .error e => .error e
        | .ok rest => .ok ({ text := c.text, score := s, source := c.source } :: rest)

/-- Insert into a descending-score list, after all elements of
greater-or-equal score (stability: earlier elements win ties). -/
def insertDesc (x : ChunkWithScore) : List ChunkWithScore → List ChunkWithScore
  | [] => [x]
  | y :: ys => if y.score > x.score then y :: insertDesc x ys else x :: y :: ys

/-- Stable descending sort by score, modelling
`scores.sort((a, b) => b.score - a.score)`. -/
def sortDesc : List ChunkWithScore → List ChunkWithScore
  | [] => []
  | x :: xs => insertDesc x (sortDesc xs)

/-- `RAGRetriever.retrieve(query, topK)`: early empty result when nothing
is indexed, then query embedding (through the cache), scoring, stable
descending sort, and `slice(0, topK)`. -/
def retrieve (st : RetrieverState)
    (provider : String → Except String (List ℝ))
    (query : String) (topK : Int) :
    Except String (List ChunkWithScore × RetrieverState) :=
  if st.chunkEmbeddings.length = 0 then .ok ([], st)
  else
    match generateEmbedding st.cache provider query with
    | .error e => .error e
    | .ok (qEmb, cache') =>
      match scoredChunks st.chunks st.chunkEmbeddings qEmb with
      | .error e => .error e
      | .ok scores =>
        .ok (jsSlice (sortDesc scores) 0 topK, { st with cache := cache' })

/-- JavaScript `Map.set`: replace in place when the key exists, otherwise
append (JS maps preserve insertion order). -/
def mapSet (m : List (String × List ℝ)) (k : String) (v : List ℝ) :
    List (String × List ℝ) :=
  if (m.lookup k).isSome then
    m.map fun p => if p.1 = k then (k, v) else p
  else
    m ++ [(k, v)]

/-- `RAGRetriever.indexDocuments`: embeds every chunk, storing successes in
the `chunkEmbeddings` map; a per-chunk embedding failure is caught and
logged, the chunk is skipped, and indexing continues.  The function always
completes normally. -/
def indexDocuments (st : RetrieverState)
    (provider : String → Except String (List ℝ)) : RetrieverState :=
  if st.chunks.length = 0 then st
  else
    let step := fun (acc : List (String × List ℝ) × List (String × List ℝ))
        (c : Chunk) =>
      match generateEmbedding acc.2 provider c.text with
      | .ok (v, cache') => (mapSet acc.1 (chunkKey c) v, cache')
      | .error _ => acc
    let res := st.chunks.foldl step (st.chunkEmbeddings, st.cache)
    { st with chunkEmbeddings := res.1, cache := res.2 }

end

/-! ### Concrete fixtures for witnesses -/

noncomputable section

/-- A provider that always fails; unused on cache hits. -/
def exProvider : String → Except String (List ℝ) :=
  fun _ => .error "provider unavailable"

/-- A one-chunk indexed state whose cache already holds the query "q". -/
def exState1 : RetrieverState :=
  ⟨[⟨"t0", "s", 0⟩], [("s-0", [1])], [("q", [1])]⟩

/-- A two-chunk indexed state, both chunks with identical embeddings. -/
def exState2 : RetrieverState :=
  ⟨[⟨"t0", "s", 0⟩, ⟨"t1", "s", 1⟩], [("s-0", [1]), ("s-1", [1])],
    [("q", [1])]⟩

end

/-! ## Agent (src/unnamed/part_004, `RAGMultiModelAgent`)

The generation capability (`neurolink.generate`) is an oracle
`provider → model → prompt → Except error text`; the code's
"try several response shapes" normalization (`result.text || result.content
|| result.response || ''`) is collapsed into the oracle returning the final
text.  `new Date().toISOString()` is an explicit `now` parameter. -/

/-- One entry of `this.evaluationModels`. -/
structure EvalModel where
  provider : String
  model : String
  name : String
deriving DecidableEq

/-- The `Evaluation` record of part_004; `error` is the `error?: boolean`
field, absent (falsy) on success and `true` on a failed judge call. -/
structure Evaluation where
  evaluatorName : String
  model : String
  provider : String
  evaluation : String
  timestamp : String
  error : Bool
deriving DecidableEq

/-- One web search result item. -/
structure SearchItem where
  title : String
  url : String
  content : String
deriving DecidableEq

/-- `WebSearchResult` from src/src/types.ts. -/
structure WebSearchResult where
  aiSummary : String
  results : List SearchItem
deriving DecidableEq

/-- The judge prompt of `evaluateResponse` (identical for every judge).
`webSearchResults` is a non-nullable object in the source, so the
`webSearchResults ? 'Yes' : 'No'` interpolation is constantly "Yes". -/
def evaluationPrompt (userQuery response documentContext : String)
    (_web : WebSearchResult) : String :=
  "You are an expert evaluator. Analyze the following response to a user query. The response was generated using both document context and web search results.\n\n**User Query:** \"" ++
  userQuery ++
  "\"\n\n**Response to Evaluate:**\n\"\"\"\n" ++
  response ++
  "\n\"\"\"\n\n**Available Context:**\n- Document Context: " ++
  (if documentContext = "" then "No" else "Yes") ++
  "\n- Web Search Results: Yes\n\nEvaluate the response on:\n1. **Accuracy Score** (0-10): Factual correctness\n2. **Relevance Score** (0-10): Alignment with query\n3. **Completeness Score** (0-10): Comprehensiveness\n4. **Source Integration** (0-10): How well it uses documents and web results\n5. **Clarity Score** (0-10): Clear communication\n6. **Overall Score** (0-10): Holistic assessment\n7. **Key Strengths**: Main strengths\n8. **Areas for Improvement**: What could be better\n9. **Recommendation**: Accept/Enhance/Rewrite\n\nProvide structured evaluation."

/-- `RAGMultiModelAgent.evaluateResponse`: one generation call per
configured judge; `Promise.all` keeps configuration order.  A failing call
is caught and recorded as an `Evaluation` with `error := true` and the
error description in the evaluation text; siblings are unaffected. -/
def evaluateResponse (models : List EvalModel)
    (gen : String → String → String → Except String String) (now : String)
    (userQuery response documentContext : String) (web : WebSearchResult) :
    List Evaluation :=
  models.map fun m =>
    match gen m.provider m.model
        (evaluationPrompt userQuery response documentContext web) with
    | .ok t =>
      { evaluatorName := m.name, model := m.model, provider := m.provider,
        evaluation := t, timestamp := now, error := false }
    | .error e =>
      { evaluatorName := m.name, model := m.model, provider := m.provider,
        evaluation := "Error: " ++ e, timestamp := now, error := true }

/-- Whether a judge's generation call fails (for counting failed entries). -/
def judgeCallFails (gen : String → String → String → Except String String)
    (prompt : String) (m : EvalModel) : Bool :=
  match gen m.provider m.model prompt with
  | .error _ => true
  | .ok _ => false

/-- The aggregation result of `aggregateAndFinalize` (the metadata fields
inlined). -/
structure FinalResult where
  finalResponse : String
  aggregatorModel : String
  aggregatorProvider : String
  timestamp : String
deriving DecidableEq

/-- The synthesis prompt of `aggregateAndFinalize`: evaluations with
`error` set are filtered out before the summary is built. -/
def aggregationPrompt (userQuery initialResponse : String)
    (evaluations : List Evaluation) (sources : List String) : String :=
  "You are a meta-evaluator synthesizing expert evaluations to produce the best possible final response.\n\n**Original User Query:**\n\"" ++
  userQuery ++
  "\"\n\n**Initial Response:**\n\"\"\"\n" ++
  initialResponse ++
  "\n\"\"\"\n\n**Sources Used:**\n" ++
  String.intercalate ", " sources ++
  "\n\n**Expert Evaluations:**\n" ++
  String.intercalate "\n\n"
    ((evaluations.filter fun e => !e.error).map fun e =>
      "### " ++ e.evaluatorName ++ " Evaluation:\n" ++ e.evaluation) ++
  "\n\n**Your Task:**\n1. Analyze all expert evaluations\n2. Identify common strengths and weaknesses\n3. Decide: Accept/Enhance/Rewrite\n4. Generate the FINAL RESPONSE incorporating all feedback\n\n**Output Format:**\n- **Decision**: [Accept/Enhance/Rewrite]\n- **Reasoning**: Brief explanation\n- **Final Response**: Best possible answer (original or improved)\n- **Improvements Made**: List any improvements\n- **Sources**: Cite sources used"

/-- `RAGMultiModelAgent.aggregateAndFinalize`: a single aggregator
generation call on the synthesis prompt; its failure is rethrown
(propagates), and its text is returned as `finalResponse` unchanged —
there is no decision field and no default. -/
def aggregateAndFinalize (userQuery initialResponse : String)
    (evaluations : List Evaluation) (sources : List String)
    (gen : String → String → String → Except String String)
    (aggProvider aggModel now : String) : Except String FinalResult :=
  match gen aggProvider aggModel
      (aggregationPrompt userQuery initialResponse evaluations sources) with
  | .ok t =>
    .ok { finalResponse := t, aggregatorModel := aggModel,
          aggregatorProvider := aggProvider, timestamp := now }
  | .error e => .error e

/-! ## Web search and top-level pipeline (src/src/web-search.ts, part_004) -/

/-- The parsed Tavily JSON reply (`results`, optional `answer`). -/
structure TavilyResponse where
  results : List SearchItem
  answer : Option String

/-- The query-enhancement prompt of `WebSearch.enhanceQuery`. -/
def enhanceQueryPrompt (originalQuery documentContext : String) : String :=
  "Given the user\x27s query and document context, enhance the query to make it more effective for web search.\n\nUser Query: " ++
  originalQuery ++
  "\n\nDocument Context (first 500 chars):\n" ++
  documentContext.take 500 ++
  "\n\nProvide an enhanced search query that will find relevant information on the web. Return ONLY the enhanced query, nothing else."

/-- `WebSearch.enhanceQuery`: on any generation failure the error is caught
and the ORIGINAL query is returned (fail-open). -/
def webEnhanceQuery (enhanceGen : String → Except String String)
    (originalQuery documentContext : String) : String :=
  match enhanceGen (enhanceQueryPrompt originalQuery documentContext) with
  | .ok t => t.trim
  | .error _ => originalQuery

/-- `WebSearch.search`: unavailable without an API key; transport/API
failures are caught and tagged in the summary; never fails. -/
def webSearch (tavilyKey : Option String)
    (searchFetch : String → Int → Except String TavilyResponse)
    (query : String) (maxResults : Int) : WebSearchResult :=
  match tavilyKey with
  | none =>
    { aiSummary := "Web search is not configured. Please add TAVILY_API_KEY to your environment variables.",
      results := [] }
  | some _ =>
    match searchFetch query maxResults with
    | .ok data =>
      { aiSummary := data.answer.getD "No AI summary available",
        results := data.results }
    | .error e =>
      { aiSummary := "Web search failed: " ++ e, results := [] }

/-- `WebSearch.formatResults`. -/
def formatResults (searchResult : WebSearchResult) : String :=
  "AI Summary: " ++ searchResult.aiSummary ++ "\n\n" ++
  (if searchResult.results.length > 0 then
    "Web Results:\n" ++
    String.join (searchResult.results.enum.map fun p =>
      "\n" ++ toString (p.1 + 1) ++ ". " ++ p.2.title ++ "\n   URL: " ++
      p.2.url ++ "\n   " ++ p.2.content ++ "\n")
  else "")

/-- `RAGRetriever.formatContext`; `fmtScore` abstracts the JavaScript
`(score * 100).toFixed(1)` decimal rendering, which has no exact
real-number counterpart. -/
def formatContext (fmtScore : ℝ → String)
    (chunks : List ChunkWithScore) : String :=
  if chunks.length = 0 then "No relevant document context found."
  else
    "Relevant document context:\n\n" ++
    String.join (chunks.enum.map fun p =>
      "[" ++ toString (p.1 + 1) ++ "] From " ++ p.2.source ++
      " (Relevance: " ++ fmtScore p.2.score ++ "%):\n" ++ p.2.text ++ "\n\n")

/-- JavaScript `[...new Set(l)]`: deduplicate keeping first occurrences. -/
def jsSetDedup : List String → List String
  | [] => []
  | x :: xs => x :: jsSetDedup (xs.filter fun y => y ≠ x)
termination_by l => l.length
decreasing_by
  simpa using Nat.lt_succ_of_le (List.length_filter_le _ _)

/-- The value of `retrieveDocumentContext`. -/
structure RetrievalOutcome where
  context : String
  chunks : List ChunkWithScore
  sources : List String

/-- `RAGMultiModelAgent.retrieveDocumentContext`: empty retrieval yields an
empty context; otherwise the formatted context and deduplicated sources. -/
noncomputable def retrieveDocumentContext (st : RetrieverState)
    (provider : String → Except String (List ℝ)) (fmtScore : ℝ → String)
    (topK : Int) (userQuery : String) :
    Except String (RetrievalOutcome × RetrieverState) :=
  match retrieve st provider userQuery topK with
  | .error e => .error e
  | .ok (chunks, st') =>
    if chunks.length = 0 then
      .ok ({ context := "", chunks := [], sources := [] }, st')
    else
      .ok ({ context := formatContext fmtScore chunks, chunks := chunks,
             sources := jsSetDedup (chunks.map fun c => c.source) }, st')

/-- The value of the agent's `enhanceQuery` step. -/
structure QueryEnhancement where
  original : String
  enhanced : String

/-- `RAGMultiModelAgent.enhanceQuery`: with empty document context the
original query is returned without calling the generation capability. -/
def agentEnhanceQuery (enhanceGen : String → Except String String)
    (userQuery documentContext : String) : QueryEnhancement :=
  if documentContext = "" then
    { original := userQuery, enhanced := userQuery }
  else
    { original := userQuery,
      enhanced := webEnhanceQuery enhanceGen userQuery documentContext }

/-- The prompt of `RAGMultiModelAgent.generateResponse` (three variants:
documents present, web-only fallback, no context at all). -/
def genResponsePrompt (userQuery documentContext : String)
    (web : WebSearchResult) : String :=
  if documentContext ≠ "" then
    "You are a specialized AI assistant with access to both uploaded documents and web search results. PRIORITIZE the uploaded document content as your PRIMARY source.\n\n**User Query:**\n" ++
    userQuery ++
    "\n\n**PRIMARY SOURCE - UPLOADED DOCUMENT CONTENT:**\n" ++
    documentContext ++ "\n\n" ++
    (if web.results.length > 0 then
      "**SUPPLEMENTARY SOURCE - Web Search Results (for additional context):**\n" ++
      formatResults web
    else "") ++
    "\n\n**CRITICAL INSTRUCTIONS:**\n1. **DOCUMENTS FIRST**: Base your answer PRIMARILY on the uploaded document content - this is your main source of truth\n2. **Comprehensive Document Analysis**: Extract and present ALL relevant information from the documents in detail\n3. **Web as Supplement**: Use web search results ONLY to:\n   - Provide additional recent information not in documents\n   - Add broader context that complements the document information\n   - Fill small gaps if documents don\x27t fully cover the query\n4. **Clear Source Attribution**: \n   - Start with document-based information\n   - Clearly label any web information as \"Additional context from web search:\"\n5. **Direct Citations**: Reference specific details from the documents\n\n**Response Structure:**\n1. Begin with a comprehensive answer based on uploaded documents\n2. Include all relevant details, facts, and information from the documents\n3. If web results provide valuable supplementary information, add it at the end with clear labeling\n4. Make it crystal clear which information comes from documents vs. web\n\n**Your Response:**"
  else if web.results.length > 0 then
    "You are a helpful AI assistant. The user uploaded documents, but they don\x27t contain relevant information for this query. Use web search results as a fallback.\n\n**User Query:**\n" ++
    userQuery ++
    "\n\n**Note:** No relevant information found in uploaded documents.\n\n**Web Search Results:**\n" ++
    formatResults web ++
    "\n\n**Instructions:**\n- Clearly state that the information comes from web search, not uploaded documents\n- Provide a helpful answer based on web results\n- Suggest the user upload relevant documents if they have them\n\n**Your Response:**"
  else
    "You are a helpful AI assistant. \n\n**User Query:**\n" ++
    userQuery ++
    "\n\n**Note:** No documents have been uploaded and no web search results are available.\n\n**Your Response:**\nPlease inform the user that no documents have been uploaded yet and suggest they upload relevant documents to get a comprehensive answer based on their data."

/-- `RAGMultiModelAgent.generateResponse`: a single primary generation
call; its failure is rethrown (load-bearing step). -/
def generateResponse (gen : String → String → String → Except String String)
    (primaryProvider primaryModel : String)
    (userQuery documentContext : String) (web : WebSearchResult) :
    Except String String :=
  gen primaryProvider primaryModel
    (genResponsePrompt userQuery documentContext web)

/-- The agent's configuration relevant to `process`. -/
structure AgentConfig where
  primaryProvider : String
  primaryModel : String
  evaluationModels : List EvalModel
  aggregatorProvider : String
  aggregatorModel : String
  topK : Int

/-- The external collaborators of one `process` call. -/
structure Oracles where
  embedProvider : String → Except String (List ℝ)
  genText : String → String → String → Except String String
  enhanceGen : String → Except String String
  tavilyKey : Option String
  searchFetch : String → Int → Except String TavilyResponse
  fmtScore : ℝ → String
  now : String
  durStr : String

/-- The `ProcessResult` of part_004: a discriminated success/failure
record; failure carries only the error message and the query. -/
structure ProcessResult where
  success : Bool
  userQuery : String
  documentContext : Option RetrievalOutcome
  queryEnhancement : Option QueryEnhancement
  webSearchResults : Option WebSearchResult
  initialResponse : Option String
  evaluations : Option (List Evaluation)
  finalResult : Option FinalResult
  duration : Option String
  sources : Option (List String)
  error : Option String

/-- The failure branch of `process` (the top-level catch). -/
def processFailure (userQuery e : String) : ProcessResult :=
  { success := false, userQuery := userQuery, documentContext := none,
    queryEnhancement := none, webSearchResults := none,
    initialResponse := none, evaluations := none, finalResult := none,
    duration := none, sources := none, error := some e }

/-- `RAGMultiModelAgent.process`: retrieval → query enhancement → web
search → draft generation → evaluation → aggregation, with a top-level
catch that converts any thrown error into a structured failure result
instead of rethrowing. -/
noncomputable def process (st : RetrieverState) (cfg : AgentConfig)
    (o : Oracles) (userQuery : String) : ProcessResult :=
  match retrieveDocumentContext st o.embedProvider o.fmtScore cfg.topK
      userQuery with
  | .error e => processFailure userQuery e
  | .ok (retrieval, _st') =>
    let enh := agentEnhanceQuery o.enhanceGen userQuery retrieval.context
    let webResults := webSearch o.tavilyKey o.searchFetch enh.enhanced 3
    match generateResponse o.genText cfg.primaryProvider cfg.primaryModel
        userQuery retrieval.context webResults with
    | .error e => processFailure userQuery e
    | .ok response =>
      let evals := evaluateResponse cfg.evaluationModels o.genText o.now
        userQuery response retrieval.context webResults
      let allSources := retrieval.sources ++ ["Web Search"]
      match aggregateAndFinalize userQuery response evals allSources
          o.genText cfg.aggregatorProvider cfg.aggregatorModel o.now with
      | .error e => processFailure userQuery e
      | .ok finalResult =>
        { success := true, userQuery := userQuery,
          documentContext := some retrieval, queryEnhancement := some enh,
          webSearchResults := some webResults,
          initialResponse := some response, evaluations := some evals,
          finalResult := some finalResult, duration := some o.durStr,
          sources := some allSources, error := none }

/-! ### Fixtures for the orchestrator/aggregator witnesses -/

/-- Three judges with distinct model identifiers. -/
def exJudges : List EvalModel :=
  [⟨"google-ai", "m1", "Evaluator-1"⟩,
   ⟨"google-ai", "m2", "Evaluator-2"⟩,
   ⟨"google-ai", "m3", "Evaluator-3"⟩]

/-- A generation oracle that fails exactly for model "m2". -/
def exGen : String → String → String → Except String String :=
  fun _ model _ => if model = "m2" then .error "boom" else .ok "fine"

/-- An empty web search result. -/
def exWeb : WebSearchResult := ⟨"summary", []⟩

/-- All-failed evaluation list. -/
def failedEvals : List Evaluation :=
  [⟨"Evaluator-1", "m1", "google-ai", "Error: x1", "ts", true⟩,
   ⟨"Evaluator-2", "m2", "google-ai", "Error: x2", "ts", true⟩,
   ⟨"Evaluator-3", "m3", "google-ai", "Error: x3", "ts", true⟩]

/-- An aggregator oracle whose reply opens with a Rewrite decision. -/
def rewriteGen : String → String → String → Except String String :=
  fun _ _ _ => .ok "Decision: Rewrite"

noncomputable section

/-- An embedding provider that always fails. -/
def failProvider : String → Except String (List ℝ) :=
  fun _ => .error "embedding quota exceeded"

/-- A one-chunk state with nothing indexed and an empty cache. -/
def indexFailState : RetrieverState := ⟨[⟨"t0", "s", 0⟩], [], []⟩

/-- A one-chunk indexed state with an EMPTY embedding cache, so a retrieval
query must call the embedding provider. -/
def missState : RetrieverState := ⟨[⟨"t0", "s", 0⟩], [("s-0", [1])], []⟩

/-- A minimal agent configuration. -/
def exCfg : AgentConfig := ⟨"google-ai", "m", exJudges, "google-ai", "m", 3⟩

/-- Collaborators whose embedding provider always fails. -/
def exOracles : Oracles :=
  ⟨failProvider, fun _ _ _ => .ok "generated", fun _ => .ok "enhanced",
   none, fun _ _ => .error "network down", fun _ => "0.0", "ts", "1.00"⟩

end

/-! ### Chunker lemmas -/

lemma jsSlice_nat (l : List α) (i ws : Nat) :
    jsSlice l (i : Int) ((i : Int) + (ws : Int)) = (l.drop i).take ws := by
  unfold jsSlice
  have h1 : ¬ ((i : Int) < 0) := by omega
  have h2 : ¬ ((i : Int) + (ws : Int) < 0) := by omega
  simp only [h1, h2, if_false]
  rcases le_or_lt (i + ws) l.length with hle | hlt
  · have e1 : (min ((i : Int) + (ws : Int)) (l.length : Int)).toNat = i + ws := by omega
    have e2 : (min (i : Int) (l.length : Int)).toNat = i := by omega
    rw [e1, e2, List.drop_take]
    congr 1
    omega
  · have e1 : (min ((i : Int) + (ws : Int)) (l.length : Int)).toNat = l.length := by omega
    rw [e1, List.take_length]
    rcases le_or_lt i l.length with hi | hi
    · have e2 : (min (i : Int) (l.length : Int)).toNat = i := by omega
      rw [e2, ← List.take_length (l := l.drop i), List.length_drop]
      exact (List.take_of_length_le (by simp; omega)).symm
    · have e2 : (min (i : Int) (l.length : Int)).toNat = l.length := by omega
      rw [e2, List.drop_of_length_le le_rfl,
        List.drop_of_length_le (le_of_lt hi)]
      simp

lemma splitWsAux_ne_nil_bounded :
    ∀ (n : Nat) (l cur : JSStr), l.length ≤ n → splitWsAux l cur ≠ [] := by
  intro n
  induction n with
  | zero =>
    intro l cur hl
    rw [List.length_eq_zero.mp (Nat.le_zero.mp hl)]
    simp [splitWsAux]
  | succ n ih =>
    intro l cur hl
    cases l with
    | nil => simp [splitWsAux]
    | cons c rest =>
      rw [splitWsAux]
      by_cases hw : c.isWhitespace
      · simp [hw]
      · simp only [hw, if_false]
        exact ih rest (c :: cur) (by simpa using Nat.lt_succ_iff.mp hl)

lemma splitWsAux_ne_nil (l cur : JSStr) : splitWsAux l cur ≠ [] :=
  splitWsAux_ne_nil_bounded l.length l cur le_rfl

lemma splitWs_length_pos (s : JSStr) : 0 < (splitWs s).length :=
  List.length_pos.mpr (splitWsAux_ne_nil s [])

lemma chunkLoop_eq_spec (words : List JSStr) (ws ov : Nat) (h : ov < ws) :
    ∀ (fuel : Nat) (i : Nat), words.length - i < fuel →
      chunkLoop words (ws : Int) (ov : Int) (i : Int) fuel =
        some (chunkSpecLoop words ws (ws - ov) (by omega) i) := by
  intro fuel
  induction fuel with
  | zero => intro i hi; omega
  | succ fuel ih =>
    intro i hi
    rw [chunkLoop, chunkSpecLoop]
    by_cases hlt : i < words.length
    · have hlt' : (i : Int) < (words.length : Int) := by exact_mod_cast hlt
      have hcast : (i : Int) + ((ws : Int) - (ov : Int)) = ((i + (ws - ov) : Nat) : Int) := by
        omega
      simp only [hlt', if_true, hcast, hlt, dif_pos]
      rw [ih (i + (ws - ov)) (by omega), jsSlice_nat]
    · have hlt' : ¬ ((i : Int) < (words.length : Int)) := by omega
      simp [hlt', hlt]

/-- C4: for `overlap < windowSize` the source chunker computes exactly the
procedure the claim describes (split on whitespace, window of up to
`windowSize` words starting every `windowSize - overlap` words, trim, drop
empty windows), and the empty text yields the empty chunk sequence. -/
theorem chunkDocument_matches_spec :
    (∀ (content : JSStr) (ws ov : Nat) (h : ov < ws),
      chunkDocument content (ws : Int) (ov : Int) =
        some (chunkSpec content ws ov h)) ∧
    (∀ (ws ov : Nat), ov < ws →
      chunkDocument ([] : JSStr) (ws : Int) (ov : Int) = some []) := by
  constructor
  · intro content ws ov h
    unfold chunkDocument chunkSpec
    exact chunkLoop_eq_spec _ ws ov h _ 0 (by omega)
  · intro ws ov h
    have heq := chunkLoop_eq_spec (splitWs []) ws ov h
      ((splitWs []).length + 1) 0 (by omega)
    simp only [Nat.cast_zero] at heq
    unfold chunkDocument
    rw [heq]
    congr 1
    have h0 : splitWs ([] : JSStr) = [[]] := by
      rw [splitWs, splitWsAux]; simp
    obtain ⟨n, rfl⟩ : ∃ n, ws = n + 1 := ⟨ws - 1, by omega⟩
    rw [chunkSpecLoop]
    simp only [h0, List.length_singleton, Nat.zero_lt_one, dif_pos,
      List.drop_zero]
    have htake : List.take (n + 1) ([[]] : List JSStr) = [[]] := by simp
    rw [htake]
    have ht : jsTrim (joinSpace ([[]] : List JSStr)) = [] := rfl
    rw [ht, if_neg (by simp), chunkSpecLoop,
      dif_neg (by simp only [List.length_singleton]; omega)]

/-- C4 witness: concrete instance of the refinement theorem. -/
theorem chunkDocument_matches_spec_witness :
    chunkDocument (['a', ' ', 'b', ' ', 'c'] : JSStr) 2 1 =
      some (chunkSpec ['a', ' ', 'b', ' ', 'c'] 2 1 (by omega)) ∧
    chunkDocument ([] : JSStr) 2 1 = some [] :=
  ⟨chunkDocument_matches_spec.1 ['a', ' ', 'b', ' ', 'c'] 2 1 (by omega),
   chunkDocument_matches_spec.2 2 1 (by omega)⟩

lemma chunkLoop_no_fuel_of_step_nonpos (words : List JSStr)
    (hw : 0 < words.length) (cs ov : Int) (hstep : cs ≤ ov) :
    ∀ (fuel : Nat) (i : Int), i ≤ 0 →
      chunkLoop words cs ov i fuel = none := by
  intro fuel
  induction fuel with
  | zero => intro i _; rfl
  | succ fuel ih =>
    intro i hi
    rw [chunkLoop]
    have hlt : i < (words.length : Int) := by omega
    simp only [hlt, if_true]
    rw [ih (i + (cs - ov)) (by omega)]

/-- C5: with `overlap >= windowSize` the source chunker never terminates —
for every fuel bound the loop is still running (the index never reaches the
word count, because `words.length >= 1` always and the step is
non-positive).  In particular no `ConfigurationError` is ever raised: the
code has no such rejection path. -/
theorem chunkDocument_overlap_ge_window_diverges :
    ∀ (content : JSStr) (cs ov : Int), cs ≤ ov →
      ∀ (fuel : Nat), chunkLoop (splitWs content) cs ov 0 fuel = none := by
  intro content cs ov h fuel
  exact chunkLoop_no_fuel_of_step_nonpos _ (splitWs_length_pos content)
    cs ov h fuel 0 le_rfl

/-- C5 witness: the loop for `chunkDocument("a b c", 2, 2)` is still
unfinished after 1000 iterations. -/
theorem chunkDocument_overlap_ge_window_diverges_witness :
    chunkLoop (splitWs ['a', ' ', 'b', ' ', 'c']) 2 2 0 1000 = none :=
  chunkDocument_overlap_ge_window_diverges ['a', ' ', 'b', ' ', 'c'] 2 2
    (by omega) 1000

/-! ### Cosine similarity lemmas -/

lemma zipWith_mul_sum_eq (a : List ℝ) :
    ∀ (b : List ℝ), a.length = b.length →
      (List.zipWith (· * ·) a b).sum =
        ∑ i in Finset.range a.length, a.getD i 0 * b.getD i 0 := by
  induction a with
  | nil => intro b _; simp
  | cons x a ih =>
    intro b hb
    cases b with
    | nil => simp at hb
    | cons y b =>
      simp only [List.zipWith_cons_cons, List.sum_cons, List.length_cons]
      rw [Finset.sum_range_succ']
      simp only [List.getD_cons_succ, List.getD_cons_zero]
      rw [ih b (by simpa using hb)]
      ring

lemma dotL_self_nonneg (a : List ℝ) : 0 ≤ dotL a a := by
  unfold dotL
  induction a with
  | nil => simp
  | cons x a ih =>
    simp only [List.zipWith_cons_cons, List.sum_cons]
    exact add_nonneg (mul_self_nonneg x) ih

lemma dotL_self_eq_sq_sum (a : List ℝ) :
    dotL a a = ∑ i in Finset.range a.length, a.getD i 0 ^ 2 := by
  rw [dotL, zipWith_mul_sum_eq a a rfl]
  exact Finset.sum_congr rfl fun i _ => (sq (a.getD i 0)).symm

lemma abs_dotL_le (a b : List ℝ) (h : a.length = b.length) :
    |dotL a b| ≤ Real.sqrt (dotL a a) * Real.sqrt (dotL b b) := by
  have hdot : dotL a b =
      ∑ i in Finset.range a.length, a.getD i 0 * b.getD i 0 :=
    zipWith_mul_sum_eq a b h
  have hb : dotL b b = ∑ i in Finset.range a.length, b.getD i 0 ^ 2 := by
    rw [dotL_self_eq_sq_sum, h]
  rw [abs_le, hdot, dotL_self_eq_sq_sum, hb]
  constructor
  · have hneg := Real.sum_mul_le_sqrt_mul_sqrt (Finset.range a.length)
      (fun i => -(a.getD i 0)) (fun i => b.getD i 0)
    simp only [neg_mul, neg_sq, Finset.sum_neg_distrib] at hneg
    linarith
  · exact Real.sum_mul_le_sqrt_mul_sqrt _ _ _

lemma cosineSimilarity_ok_bounds (a b : List ℝ) (r : ℝ)
    (h : cosineSimilarity a b = .ok r) : -1 ≤ r ∧ r ≤ 1 := by
  unfold cosineSimilarity at h
  by_cases hlen : a.length ≠ b.length
  · rw [if_pos hlen] at h
    cases h
  · rw [if_neg hlen] at h
    have hlen' : a.length = b.length := not_ne_iff.mp hlen
    by_cases hz : Real.sqrt (dotL a a) = 0 ∨ Real.sqrt (dotL b b) = 0
    · rw [if_pos hz] at h
      cases h
      norm_num
    · rw [if_neg hz] at h
      cases h
      push_neg at hz
      have hA : 0 < Real.sqrt (dotL a a) :=
        lt_of_le_of_ne (Real.sqrt_nonneg _) (Ne.symm hz.1)
      have hB : 0 < Real.sqrt (dotL b b) :=
        lt_of_le_of_ne (Real.sqrt_nonneg _) (Ne.symm hz.2)
      have hden : 0 < Real.sqrt (dotL a a) * Real.sqrt (dotL b b) :=
        mul_pos hA hB
      have habs := abs_dotL_le a b hlen'
      rw [abs_le] at habs
      constructor
      · rw [le_div_iff₀ hden]
        linarith
      · rw [div_le_one hden]
        exact habs.2

/-- C3 counterexample: the TypeScript `cosineSimilarity` RAISES on a
length mismatch instead of returning 0 — refuting "returns 0 and never
raises an error" for mismatched vectors. -/
theorem cosineSimilarity_mismatch_raises :
    cosineSimilarity [(1 : ℝ)] [] =
      .error "Embeddings must have the same length" := rfl

/-- C3 amended: the two implementations differ.  The TypeScript version
(src/src/embedding-service.ts) throws "Embeddings must have the same
length" on a length mismatch, while the JavaScript version
(src/embedding-service.js) returns 0 for a missing vector or a length
mismatch.  For equal-length vectors both return
`dot(a,b) / (‖a‖·‖b‖)` and return 0 when either norm is exactly zero. -/
theorem cosineSimilarity_behavior :
    (∀ a b : List ℝ, a.length ≠ b.length →
      cosineSimilarity a b = .error "Embeddings must have the same length") ∧
    (∀ b, cosineSimilarityJS none b = 0) ∧
    (∀ a, cosineSimilarityJS (some a) none = 0) ∧
    (∀ a b : List ℝ, a.length ≠ b.length →
      cosineSimilarityJS (some a) (some b) = 0) ∧
    (∀ a b : List ℝ, a.length = b.length →
      (dotL a a = 0 ∨ dotL b b = 0) →
      cosineSimilarity a b = .ok 0 ∧ cosineSimilarityJS (some a) (some b) = 0) ∧
    (∀ a b : List ℝ, a.length = b.length →
      dotL a a ≠ 0 → dotL b b ≠ 0 →
      cosineSimilarity a b =
        .ok (dotL a b / (Real.sqrt (dotL a a) * Real.sqrt (dotL b b))) ∧
      cosineSimilarityJS (some a) (some b) =
        dotL a b / (Real.sqrt (dotL a a) * Real.sqrt (dotL b b))) := by
  refine ⟨?_, ?_, ?_, ?_, ?_, ?_⟩
  · intro a b h
    simp [cosineSimilarity, h]
  · intro b; rfl
  · intro a; rfl
  · intro a b h
    simp [cosineSimilarityJS, h]
  · intro a b hlen hz
    have hsq : Real.sqrt (dotL a a) = 0 ∨ Real.sqrt (dotL b b) = 0 := by
      rcases hz with hz | hz
      · exact Or.inl (by rw [hz, Real.sqrt_zero])
      · exact Or.inr (by rw [hz, Real.sqrt_zero])
    have hden : Real.sqrt (dotL a a) * Real.sqrt (dotL b b) = 0 :=
      mul_eq_zero.mpr hsq
    constructor
    · simp [cosineSimilarity, hlen, hsq]
    · simp [cosineSimilarityJS, hlen, hden]
  · intro a b hlen hA hB
    have hsA : Real.sqrt (dotL a a) ≠ 0 := by
      rw [Ne, Real.sqrt_eq_zero (dotL_self_nonneg a)]
      exact hA
    have hsB : Real.sqrt (dotL b b) ≠ 0 := by
      rw [Ne, Real.sqrt_eq_zero (dotL_self_nonneg b)]
      exact hB
    have hden : Real.sqrt (dotL a a) * Real.sqrt (dotL b b) ≠ 0 :=
      mul_ne_zero hsA hsB
    constructor
    · simp only [cosineSimilarity, hlen, ne_eq, not_true_eq_false, if_false]
      simp [hsA, hsB]
    · simp only [cosineSimilarityJS, hlen, ne_eq, not_true_eq_false, if_false]
      simp [hden]

/-- C3 witness: concrete instances of the amended behavior. -/
theorem cosineSimilarity_behavior_witness :
    cosineSimilarity [(1 : ℝ), 2] [3] =
      .error "Embeddings must have the same length" ∧
    cosineSimilarityJS (some [(1 : ℝ), 2]) (some [3]) = 0 ∧
    cosineSimilarity [(0 : ℝ)] [5] = .ok 0 :=
  ⟨cosineSimilarity_behavior.1 [1, 2] [3] (by simp),
   cosineSimilarity_behavior.2.2.2.1 [1, 2] [3] (by simp),
   (cosineSimilarity_behavior.2.2.2.2.1 [0] [5] (by simp)
     (Or.inl (by simp [dotL]))).1⟩

/-! ### Sorting and retrieval lemmas -/

lemma insertDesc_perm (x : ChunkWithScore) (l : List ChunkWithScore) :
    (insertDesc x l).Perm (x :: l) := by
  induction l with
  | nil => rfl
  | cons y ys ih =>
    rw [insertDesc]
    by_cases hc : y.score > x.score
    · rw [if_pos hc]
      exact (ih.cons y).trans (List.Perm.swap x y ys)
    · rw [if_neg hc]

lemma sortDesc_perm (l : List ChunkWithScore) : (sortDesc l).Perm l := by
  induction l with
  | nil => rfl
  | cons x xs ih =>
    rw [sortDesc]
    exact (insertDesc_perm x (sortDesc xs)).trans (ih.cons x)

lemma sortDesc_length (l : List ChunkWithScore) :
    (sortDesc l).length = l.length :=
  (sortDesc_perm l).length_eq

lemma insertDesc_pairwise (x : ChunkWithScore) (l : List ChunkWithScore)
    (h : l.Pairwise (fun a b => b.score ≤ a.score)) :
    (insertDesc x l).Pairwise (fun a b => b.score ≤ a.score) := by
  induction l with
  | nil => simp [insertDesc]
  | cons y ys ih =>
    rw [insertDesc]
    rw [List.pairwise_cons] at h
    by_cases hc : y.score > x.score
    · rw [if_pos hc]
      rw [List.pairwise_cons]
      refine ⟨?_, ih h.2⟩
      intro z hz
      rcases List.mem_cons.mp ((insertDesc_perm x ys).subset hz) with rfl | hz'
      · exact le_of_lt hc
      · exact h.1 z hz'
    · rw [if_neg hc]
      push_neg at hc
      rw [List.pairwise_cons]
      refine ⟨?_, List.pairwise_cons.mpr h⟩
      intro z hz
      rcases List.mem_cons.mp hz with rfl | hz
      · exact hc
      · exact le_trans (h.1 z hz) hc

lemma sortDesc_pairwise (l : List ChunkWithScore) :
    (sortDesc l).Pairwise (fun a b => b.score ≤ a.score) := by
  induction l with
  | nil => simp [sortDesc]
  | cons x xs ih => exact insertDesc_pairwise x (sortDesc xs) ih

lemma insertDesc_filter_eq (x : ChunkWithScore) (l : List ChunkWithScore)
    (s : ℝ) :
    (insertDesc x l).filter (fun c => decide (c.score = s)) =
      if x.score = s then
        x :: l.filter (fun c => decide (c.score = s))
      else
        l.filter (fun c => decide (c.score = s)) := by
  induction l with
  | nil =>
    by_cases hx : x.score = s
    · simp [insertDesc, hx]
    · simp [insertDesc, hx]
  | cons y ys ih =>
    rw [insertDesc]
    by_cases hc : y.score > x.score
    · rw [if_pos hc]
      by_cases hx : x.score = s
      · have hy : ¬ (y.score = s) := by
          intro hy
          rw [hx] at hc
          rw [hy] at hc
          exact lt_irrefl s hc
        simp only [List.filter_cons, ih]
        simp [hx, hy]
      · by_cases hy : y.score = s
        · simp only [List.filter_cons, ih]
          simp [hx, hy]
        · simp only [List.filter_cons, ih]
          simp [hx, hy]
    · rw [if_neg hc]
      by_cases hx : x.score = s
      · simp only [List.filter_cons]
        simp [hx]
      · simp only [List.filter_cons]
        simp [hx]

lemma sortDesc_filter_eq (l : List ChunkWithScore) (s : ℝ) :
    (sortDesc l).filter (fun c => decide (c.score = s)) =
      l.filter (fun c => decide (c.score = s)) := by
  induction l with
  | nil => rfl
  | cons x xs ih =>
    rw [sortDesc, insertDesc_filter_eq]
    by_cases hx : x.score = s
    · rw [if_pos hx, ih, List.filter_cons_of_pos (by simpa using hx)]
    · rw [if_neg hx, ih, List.filter_cons_of_neg (by simpa using hx)]

lemma jsSlice_zero_pos (l : List α) (k : Int) (hk : 0 ≤ k) :
    jsSlice l 0 k = l.take k.toNat := by
  unfold jsSlice
  have h0 : ¬ ((0 : Int) < 0) := by omega
  have hk' : ¬ (k < 0) := by omega
  simp only [h0, hk', if_false]
  have hmin0 : (min (0 : Int) (l.length : Int)).toNat = 0 := by omega
  rw [hmin0, List.drop_zero]
  rcases le_or_lt k (l.length : Int) with hle | hlt
  · have : (min k (l.length : Int)).toNat = k.toNat := by omega
    rw [this]
  · have : (min k (l.length : Int)).toNat = l.length := by omega
    rw [this, List.take_length, List.take_of_length_le (by omega)]

lemma jsSlice_zero_neg (l : List α) (k : Int) (hk : k < 0) :
    jsSlice l 0 k = l.take ((l.length : Int) + k).toNat := by
  unfold jsSlice
  have h0 : ¬ ((0 : Int) < 0) := by omega
  simp only [h0, hk, if_true, if_false]
  have hmin0 : (min (0 : Int) (l.length : Int)).toNat = 0 := by omega
  rw [hmin0, List.drop_zero]
  congr 1
  omega

lemma scoredChunks_mem (chunks : List Chunk) (m : List (String × List ℝ))
    (q : List ℝ) (sc : List ChunkWithScore)
    (h : scoredChunks chunks m q = .ok sc) :
    ∀ c ∈ sc, ∃ emb, cosineSimilarity q emb = .ok c.score := by
  induction chunks generalizing sc with
  | nil =>
    rw [scoredChunks] at h
    cases h
    intro c hc
    cases hc
  | cons c cs ih =>
    rw [scoredChunks] at h
    split at h
    · exact ih sc h
    · rename_i emb _
      split at h
      · cases h
      · rename_i s hcos
        split at h
        · cases h
        · rename_i rest hrest
          cases h
          intro z hz
          rcases List.mem_cons.mp hz with rfl | hz
          · exact ⟨emb, hcos⟩
          · exact ih rest hrest z hz

/-- C2: successful `retrieve` with `topK > 0` returns at most `topK`
results, with non-increasing scores, and equal-score chunks keep their
original indexing order (the result's restriction to any fixed score value
is a prefix of the in-order scored list's restriction to that value). -/
theorem retrieve_ranking :
    ∀ (st : RetrieverState) (provider : String → Except String (List ℝ))
      (q : String) (topK : Int), 0 < topK →
      ∀ (l : List ChunkWithScore) (st' : RetrieverState),
        retrieve st provider q topK = .ok (l, st') →
        l.length ≤ topK.toNat ∧
        l.Pairwise (fun a b => b.score ≤ a.score) ∧
        ((st.chunkEmbeddings = [] ∧ l = []) ∨
          ∃ qe cache' sc,
            generateEmbedding st.cache provider q = .ok (qe, cache') ∧
            scoredChunks st.chunks st.chunkEmbeddings qe = .ok sc ∧
            l = jsSlice (sortDesc sc) 0 topK ∧
            ∀ s : ℝ, l.filter (fun c => decide (c.score = s)) <+:
              sc.filter (fun c => decide (c.score = s))) := by
  intro st provider q topK htop l st' hok
  unfold retrieve at hok
  split at hok
  · rename_i hempty
    cases hok
    exact ⟨by simp, by simp,
      Or.inl ⟨List.length_eq_zero.mp hempty, rfl⟩⟩
  · split at hok
    · cases hok
    · rename_i p qe cache' hgen
      split at hok
      · cases hok
      · rename_i sc hsc
        cases hok
        have hslice : jsSlice (sortDesc sc) 0 topK =
            (sortDesc sc).take topK.toNat :=
          jsSlice_zero_pos _ topK (le_of_lt htop)
        refine ⟨?_, ?_, Or.inr ⟨qe, cache', sc, hgen, hsc, rfl, ?_⟩⟩
        · rw [hslice]
          exact List.length_take_le _ _
        · rw [hslice]
          exact (sortDesc_pairwise sc).sublist (List.take_sublist _ _)
        · intro s
          rw [hslice, ← sortDesc_filter_eq sc s]
          exact (List.take_prefix _ _).filter _

lemma cos_one : cosineSimilarity [(1 : ℝ)] [1] = .ok 1 := by
  have hd : dotL [(1 : ℝ)] [1] = 1 := by simp [dotL]
  unfold cosineSimilarity
  rw [if_neg (by simp), hd, Real.sqrt_one, if_neg (by norm_num)]
  norm_num

lemma scoredChunks_exState1 :
    scoredChunks exState1.chunks exState1.chunkEmbeddings [1] =
      .ok [⟨"t0", 1, "s"⟩] := by
  have h2 : List.lookup (chunkKey ⟨"t0", "s", 0⟩) [("s-0", [(1 : ℝ)])] =
      some [1] := rfl
  simp only [exState1, scoredChunks, h2, cos_one]

lemma retrieve_exState1_one :
    retrieve exState1 exProvider "q" 1 = .ok ([⟨"t0", 1, "s"⟩], exState1) := by
  have h1 : generateEmbedding exState1.cache exProvider "q" =
      .ok ([1], exState1.cache) := rfl
  unfold retrieve
  rw [if_neg (by simp [exState1])]
  simp only [h1, scoredChunks_exState1, sortDesc, insertDesc, jsSlice]
  norm_num [exState1]

lemma scoredChunks_exState2 :
    scoredChunks exState2.chunks exState2.chunkEmbeddings [1] =
      .ok [⟨"t0", 1, "s"⟩, ⟨"t1", 1, "s"⟩] := by
  have h2 : List.lookup (chunkKey ⟨"t0", "s", 0⟩)
      [("s-0", [(1 : ℝ)]), ("s-1", [1])] = some [1] := rfl
  have h3 : List.lookup (chunkKey ⟨"t1", "s", 1⟩)
      [("s-0", [(1 : ℝ)]), ("s-1", [1])] = some [1] := rfl
  simp only [exState2, scoredChunks, h2, h3, cos_one]

lemma retrieve_exState2_neg :
    retrieve exState2 exProvider "q" (-1) =
      .ok ([⟨"t0", 1, "s"⟩], exState2) := by
  have h1 : generateEmbedding exState2.cache exProvider "q" =
      .ok ([1], exState2.cache) := rfl
  unfold retrieve
  rw [if_neg (by simp [exState2])]
  simp only [h1, scoredChunks_exState2]
  have hsort : sortDesc [⟨"t0", 1, "s"⟩, ⟨"t1", 1, "s"⟩] =
      [⟨"t0", 1, "s"⟩, ⟨"t1", 1, "s"⟩] := by
    simp only [sortDesc, insertDesc]
    norm_num
  rw [hsort]
  have hslice : jsSlice [(⟨"t0", 1, "s"⟩ : ChunkWithScore), ⟨"t1", 1, "s"⟩]
      0 (-1) = [⟨"t0", 1, "s"⟩] := by
    rw [jsSlice_zero_neg _ _ (by omega)]
    norm_num
  rw [hslice]

/-- C2 witness: on a one-chunk indexed state with a cached query embedding,
`retrieve` with `topK = 1` succeeds and the ranking theorem applies. -/
theorem retrieve_ranking_witness :
    (0 : Int) < 1 ∧
    ([(⟨"t0", 1, "s"⟩ : ChunkWithScore)]).length ≤ (1 : Int).toNat :=
  ⟨by decide,
   (retrieve_ranking exState1 exProvider "q" 1 (by decide)
     [⟨"t0", 1, "s"⟩] exState1 retrieve_exState1_one).1⟩

/-- C8 counterexample: with two indexed chunks, `retrieve` called with
`topK = -1` returns ONE chunk, not the empty sequence the claim requires —
`scores.slice(0, topK)` with a negative `topK` drops `|topK|` entries from
the END of the ranked list. -/
theorem retrieve_negative_topk_nonempty :
    retrieve exState2 exProvider "q" (-1) =
      .ok ([⟨"t0", 1, "s"⟩], exState2) ∧
    ([(⟨"t0", 1, "s"⟩ : ChunkWithScore)]) ≠ [] :=
  ⟨retrieve_exState2_neg, by simp⟩

/-- C8 amended: a successful `retrieve` with `topK = 0` returns the empty
sequence; with `topK < 0` it instead returns the ranked list with its last
`|topK|` entries dropped (JavaScript `slice(0, topK)` semantics), i.e. the
result length is `max (scored + topK) 0` — nonempty whenever more than
`|topK|` chunks are scored.  The invalid `topK` itself never causes an
error. -/
theorem retrieve_topk_nonpos_behavior :
    ∀ (st : RetrieverState) (provider : String → Except String (List ℝ))
      (q : String) (topK : Int), topK ≤ 0 →
      ∀ (l : List ChunkWithScore) (st' : RetrieverState),
        retrieve st provider q topK = .ok (l, st') →
        (topK = 0 → l = []) ∧
        (topK < 0 →
          (st.chunkEmbeddings = [] ∧ l = []) ∨
          ∃ qe cache' sc,
            generateEmbedding st.cache provider q = .ok (qe, cache') ∧
            scoredChunks st.chunks st.chunkEmbeddings qe = .ok sc ∧
            (l.length : Int) = max ((sc.length : Int) + topK) 0) := by
  intro st provider q topK htop l st' hok
  unfold retrieve at hok
  split at hok
  · rename_i hempty
    cases hok
    exact ⟨fun _ => rfl,
      fun _ => Or.inl ⟨List.length_eq_zero.mp hempty, rfl⟩⟩
  · split at hok
    · cases hok
    · rename_i p qe cache' hgen
      split at hok
      · cases hok
      · rename_i sc hsc
        cases hok
        constructor
        · intro h0
          subst h0
          rw [jsSlice_zero_pos _ 0 le_rfl]
          simp
        · intro hneg
          refine Or.inr ⟨qe, cache', sc, hgen, hsc, ?_⟩
          rw [jsSlice_zero_neg _ _ hneg, List.length_take,
            sortDesc_length]
          omega

lemma retrieve_exState1_zero :
    retrieve exState1 exProvider "q" 0 = .ok ([], exState1) := by
  have h1 : generateEmbedding exState1.cache exProvider "q" =
      .ok ([1], exState1.cache) := rfl
  unfold retrieve
  rw [if_neg (by simp [exState1])]
  simp only [h1, scoredChunks_exState1]
  have hslice : jsSlice [(⟨"t0", 1, "s"⟩ : ChunkWithScore)] 0 0 = [] := by
    rw [jsSlice_zero_pos _ 0 le_rfl]
    simp
  rw [sortDesc, sortDesc, insertDesc, hslice]

/-- C8 witness: concrete instance of the amended behavior at `topK = 0`. -/
theorem retrieve_topk_nonpos_behavior_witness :
    (0 : Int) ≤ 0 ∧ ([] : List ChunkWithScore) = [] :=
  ⟨le_rfl,
   (retrieve_topk_nonpos_behavior exState1 exProvider "q" 0 le_rfl
     [] exState1 retrieve_exState1_zero).1 rfl⟩

lemma jsSlice_mem (l : List α) (a b : Int) :
    ∀ x ∈ jsSlice l a b, x ∈ l := by
  intro x hx
  unfold jsSlice at hx
  exact (List.take_sublist _ _).subset ((List.drop_sublist _ _).subset hx)

/-- C9: a successful cosine similarity of equal-length non-empty vectors
lies in `[-1, 1]` (Cauchy–Schwarz), and hence every score returned by a
successful `retrieve` lies in `[-1, 1]`. -/
theorem cosine_scores_in_unit_interval :
    (∀ (a b : List ℝ) (r : ℝ), a.length = b.length → a ≠ [] →
      cosineSimilarity a b = .ok r → -1 ≤ r ∧ r ≤ 1) ∧
    (∀ (st : RetrieverState) (provider : String → Except String (List ℝ))
      (q : String) (topK : Int) (l : List ChunkWithScore)
      (st' : RetrieverState),
      retrieve st provider q topK = .ok (l, st') →
      ∀ c ∈ l, -1 ≤ c.score ∧ c.score ≤ 1) := by
  constructor
  · intro a b r _ _ h
    exact cosineSimilarity_ok_bounds a b r h
  · intro st provider q topK l st' hok c hc
    unfold retrieve at hok
    split at hok
    · cases hok
      cases hc
    · split at hok
      · cases hok
      · rename_i p qe cache' _
        split at hok
        · cases hok
        · rename_i sc hsc
          cases hok
          have hmem : c ∈ sc :=
            (sortDesc_perm sc).subset (jsSlice_mem _ _ _ c hc)
          obtain ⟨emb, hcos⟩ :=
            scoredChunks_mem st.chunks st.chunkEmbeddings qe sc hsc c hmem
          exact cosineSimilarity_ok_bounds qe emb c.score hcos

/-- C9 witness: concrete instance of the bound at `[1]`, `[1]`. -/
theorem cosine_scores_in_unit_interval_witness :
    ([(1 : ℝ)].length = [(1 : ℝ)].length) ∧ ([(1 : ℝ)] ≠ []) ∧
    (-1 ≤ (1 : ℝ) ∧ (1 : ℝ) ≤ 1) :=
  ⟨rfl, by simp,
   cosine_scores_in_unit_interval.1 [1] [1] 1 rfl (by simp) cos_one⟩

lemma generateEmbedding_cache_cases (cache : List (String × List ℝ))
    (provider : String → Except String (List ℝ)) (text : String)
    (v : List ℝ) (cache' : List (String × List ℝ))
    (h : generateEmbedding cache provider text = .ok (v, cache')) :
    cache' = cache ∨ cache' = cache ++ [(text, v)] := by
  unfold generateEmbedding at h
  split at h
  · cases h
    exact Or.inl rfl
  · split at h
    · cases h
      exact Or.inr rfl
    · cases h

/-- C10: a successful `retrieve` leaves the chunk list and the
chunk-embedding map untouched; the only state it may extend is the
embedding cache, which gains at most one entry, keyed by the query text. -/
theorem retrieve_frame_effect :
    ∀ (st : RetrieverState) (provider : String → Except String (List ℝ))
      (q : String) (topK : Int) (l : List ChunkWithScore)
      (st' : RetrieverState),
      retrieve st provider q topK = .ok (l, st') →
      st'.chunks = st.chunks ∧
      st'.chunkEmbeddings = st.chunkEmbeddings ∧
      (st'.cache = st.cache ∨ ∃ v, st'.cache = st.cache ++ [(q, v)]) := by
  intro st provider q topK l st' hok
  unfold retrieve at hok
  split at hok
  · cases hok
    exact ⟨rfl, rfl, Or.inl rfl⟩
  · split at hok
    · cases hok
    · rename_i p qe cache' hgen
      split at hok
      · cases hok
      · cases hok
        refine ⟨rfl, rfl, ?_⟩
        rcases generateEmbedding_cache_cases st.cache provider q qe cache'
          hgen with h | h
        · exact Or.inl h
        · exact Or.inr ⟨qe, h⟩

/-- C10 witness: concrete instance of the frame property on `exState1`. -/
theorem retrieve_frame_effect_witness :
    exState1.chunks = exState1.chunks ∧
    exState1.chunkEmbeddings = exState1.chunkEmbeddings ∧
    (exState1.cache = exState1.cache ∨
      ∃ v, exState1.cache = exState1.cache ++ [("q", v)]) :=
  retrieve_frame_effect exState1 exProvider "q" 1 [⟨"t0", 1, "s"⟩]
    exState1 retrieve_exState1_one

/-! ### Orchestrator and aggregator theorems -/

lemma getD_map (f : α → β) :
    ∀ (l : List α) (i : Nat) (d : α) (d' : β), i < l.length →
      (l.map f).getD i d' = f (l.getD i d) := by
  intro l
  induction l with
  | nil => intro i _ _ h; simp at h
  | cons x xs ih =>
    intro i d d' h
    cases i with
    | zero => rfl
    | succ j =>
      simp only [List.map_cons, List.getD_cons_succ]
      exact ih j d d' (by simpa using h)

/-- C1: `evaluateResponse` returns exactly one `Evaluation` per configured
judge, in configuration order; a judge whose generation call fails yields
an entry with `error := true` and the error description in its evaluation
text, and the number of failed entries equals the number of failing judge
calls — siblings are unaffected. -/
theorem evaluateResponse_one_entry_per_judge :
    ∀ (models : List EvalModel)
      (gen : String → String → String → Except String String)
      (now userQuery response documentContext : String)
      (web : WebSearchResult),
      (evaluateResponse models gen now userQuery response documentContext
        web).length = models.length ∧
      (∀ (i : Nat) (dm : EvalModel) (de : Evaluation), i < models.length →
        (evaluateResponse models gen now userQuery response documentContext
          web).getD i de =
          (match gen (models.getD i dm).provider (models.getD i dm).model
              (evaluationPrompt userQuery response documentContext web) with
           | .ok t =>
             { evaluatorName := (models.getD i dm).name,
               model := (models.getD i dm).model,
               provider := (models.getD i dm).provider,
               evaluation := t, timestamp := now, error := false }
           | .error e =>
             { evaluatorName := (models.getD i dm).name,
               model := (models.getD i dm).model,
               provider := (models.getD i dm).provider,
               evaluation := "Error: " ++ e, timestamp := now,
               error := true })) ∧
      (evaluateResponse models gen now userQuery response documentContext
        web).countP (fun e => e.error) =
        models.countP (judgeCallFails gen
          (evaluationPrompt userQuery response documentContext web)) := by
  intro models gen now userQuery response documentContext web
  refine ⟨List.length_map _ _, ?_, ?_⟩
  · intro i dm de hi
    rw [evaluateResponse, getD_map _ models i dm de hi]
  · rw [evaluateResponse, List.countP_map]
    refine List.countP_congr ?_
    intro m _
    simp only [Function.comp_apply, judgeCallFails]
    cases gen m.provider m.model
      (evaluationPrompt userQuery response documentContext web) with
    | error e => rfl
    | ok t => rfl

/-- C1 witness: with three judges of which exactly one fails,
`evaluateResponse` returns exactly 3 entries, the failed judge's entry
carries the error text, and exactly one entry has `error = true`. -/
theorem evaluateResponse_one_entry_per_judge_witness :
    (1 : Nat) < exJudges.length ∧
    (evaluateResponse exJudges exGen "ts" "q" "draft" "ctx" exWeb).getD 1
      ⟨"", "", "", "", "", false⟩ =
      ⟨"Evaluator-2", "m2", "google-ai", "Error: boom", "ts", true⟩ ∧
    (evaluateResponse exJudges exGen "ts" "q" "draft" "ctx" exWeb).length =
      3 ∧
    (evaluateResponse exJudges exGen "ts" "q" "draft" "ctx"
      exWeb).countP (fun e => e.error) = 1 := by
  have h := evaluateResponse_one_entry_per_judge exJudges exGen "ts" "q"
    "draft" "ctx" exWeb
  refine ⟨by decide, ?_, ?_, ?_⟩
  · rw [h.2.1 1 ⟨"", "", ""⟩ ⟨"", "", "", "", "", false⟩ (by decide)]
    rfl
  · rw [h.1]
    rfl
  · rw [h.2.2]
    rfl

/-- C7 counterexample: with ALL evaluations failed, the synthesis prompt is
identical to the prompt built with NO evaluations at all — there is no
explicit "no evaluations were available" note — and the returned result is
whatever text the aggregator model produces ("Decision: Rewrite" here),
with no `decision` field and no `Accept` default. -/
theorem aggregate_no_accept_default :
    aggregateAndFinalize "q" "draft" failedEvals ["s1"] rewriteGen
      "google-ai" "m" "ts" =
      .ok ⟨"Decision: Rewrite", "m", "google-ai", "ts"⟩ ∧
    aggregationPrompt "q" "draft" failedEvals ["s1"] =
      aggregationPrompt "q" "draft" [] ["s1"] :=
  ⟨rfl, rfl⟩

/-- C7 amended: `aggregateAndFinalize` excludes `error := true` entries
from the synthesis prompt (the prompt depends only on the surviving
evaluations); when ALL entries are failed it still proceeds — the
evaluations section of the prompt is simply empty, with no explicit note —
and whenever the aggregator generation call succeeds it returns that
call's text unchanged, with no decision field and no `Accept` default. -/
theorem aggregate_excludes_failed_and_proceeds :
    (∀ (q init : String) (evals : List Evaluation) (sources : List String),
      aggregationPrompt q init evals sources =
        aggregationPrompt q init (evals.filter fun e => !e.error) sources) ∧
    (∀ (q init : String) (evals : List Evaluation) (sources : List String)
      (gen : String → String → String → Except String String)
      (aggP aggM now t : String),
      (∀ ev ∈ evals, ev.error = true) →
      gen aggP aggM (aggregationPrompt q init [] sources) = .ok t →
      aggregateAndFinalize q init evals sources gen aggP aggM now =
        .ok ⟨t, aggM, aggP, now⟩) := by
  constructor
  · intro q init evals sources
    unfold aggregationPrompt
    rw [List.filter_filter]
    simp
  · intro q init evals sources gen aggP aggM now t hall hgen
    have hfil : evals.filter (fun e => !e.error) = [] := by
      rw [List.filter_eq_nil_iff]
      intro ev hev
      rw [hall ev hev]
      simp
    have hprompt : aggregationPrompt q init evals sources =
        aggregationPrompt q init [] sources := by
      unfold aggregationPrompt
      rw [hfil]
      rfl
    unfold aggregateAndFinalize
    rw [hprompt, hgen]

/-- C7 witness: concrete all-failed instance of the amended theorem. -/
theorem aggregate_excludes_failed_and_proceeds_witness :
    (∀ ev ∈ failedEvals, ev.error = true) ∧
    aggregateAndFinalize "q2" "draft2" failedEvals ["s"] rewriteGen
      "google-ai" "m" "ts" =
      .ok ⟨"Decision: Rewrite", "m", "google-ai", "ts"⟩ :=
  ⟨by decide,
   aggregate_excludes_failed_and_proceeds.2 "q2" "draft2" failedEvals
     ["s"] rewriteGen "google-ai" "m" "ts" "Decision: Rewrite"
     (by decide) rfl⟩

/-! ### Error-propagation theorems (C6) -/

/-- C6 counterexample: an embedding failure during indexing does NOT
propagate — `indexDocuments` catches it per chunk, completes normally and
simply leaves the failing chunk unindexed (the state is returned
unchanged). -/
theorem indexDocuments_absorbs_embedding_failure :
    indexDocuments indexFailState failProvider = indexFailState ∧
    (indexDocuments indexFailState failProvider).chunkEmbeddings = [] := by
  constructor
  · rfl
  · rfl

lemma indexFold_all_fail (provider : String → Except String (List ℝ))
    (hfail : ∀ t, ∃ e, provider t = .error e) :
    ∀ (chunks : List Chunk) (m : List (String × List ℝ)),
      chunks.foldl (fun acc c =>
        match generateEmbedding acc.2 provider c.text with
        | .ok (v, cache') => (mapSet acc.1 (chunkKey c) v, cache')
        | .error _ => acc) (m, ([] : List (String × List ℝ))) = (m, []) := by
  intro chunks
  induction chunks with
  | nil => intro m; rfl
  | cons c cs ih =>
    intro m
    obtain ⟨e, he⟩ := hfail c.text
    have hg : generateEmbedding [] provider c.text = .error e := by
      unfold generateEmbedding
      simp only [List.lookup_nil, he]
    rw [List.foldl_cons]
    simp only [hg]
    exact ih m

/-- C6 amended: an embedding failure during indexing is caught per chunk —
the chunk is skipped and indexing completes normally (here: when every
embedding call fails and the cache is empty, the state is returned
unchanged).  By contrast, an embedding failure for the QUERY during
retrieval propagates out of `retrieve`, and `process()` catches it and
reports a structured failure result (`success := false` with the error
message) rather than throwing. -/
theorem embedding_failure_handling :
    (∀ (st : RetrieverState) (provider : String → Except String (List ℝ)),
      st.cache = [] → (∀ t, ∃ e, provider t = .error e) →
      indexDocuments st provider = st) ∧
    (∀ (st : RetrieverState) (cfg : AgentConfig) (o : Oracles)
      (q e : String),
      st.chunkEmbeddings ≠ [] → st.cache.lookup q = none →
      o.embedProvider q = .error e →
      process st cfg o q = processFailure q e) := by
  constructor
  · intro st provider hc hfail
    obtain ⟨cks, m, ca⟩ := st
    simp only at hc
    subst hc
    unfold indexDocuments
    split
    · rfl
    · simp only
      rw [indexFold_all_fail provider hfail cks m]
  · intro st cfg o q e hne hlook hprov
    have hg : generateEmbedding st.cache o.embedProvider q = .error e := by
      unfold generateEmbedding
      simp only [hlook, hprov]
    have hret : retrieve st o.embedProvider q cfg.topK = .error e := by
      unfold retrieve
      rw [if_neg (fun h => hne (List.length_eq_zero.mp h))]
      simp only [hg]
    have hrdc : retrieveDocumentContext st o.embedProvider o.fmtScore
        cfg.topK q = .error e := by
      unfold retrieveDocumentContext
      simp only [hret]
    unfold process
    simp only [hrdc]

/-- C6 witness: with one indexed chunk, an empty cache and a failing
embedding provider, `process` returns the structured failure result. -/
theorem embedding_failure_handling_witness :
    missState.chunkEmbeddings ≠ [] ∧
    process missState exCfg exOracles "q" =
      processFailure "q" "embedding quota exceeded" :=
  ⟨by simp [missState],
   embedding_failure_handling.2 missState exCfg exOracles "q"
     "embedding quota exceeded" (by simp [missState]) rfl rfl⟩

end RAG
